import Mathlib

/-
Verification of the graph-construction, filtered-subgraph projection and
force-directed layout core of the lenny_graph repository.

Sources embedded:
  - nextjs-app types (Episode, Node, Edge records)
  - createGraph, filterGraph (lib, graph utilities)
  - Graph3D: updateLayout (repulsion, attraction, integration, containment),
    the paused effect, and the nodes/edges rebuild effect.

JavaScript numbers are modelled as real numbers; Math.sqrt as Real.sqrt;
Math.random() draws as an explicit stream of reals in [0, 1).
-/

namespace LennyGraph

/-- Episode record, from the Episode interface of the types module. -/
structure Episode where
  episode_name : String
  guest_name : String
  key_takeaways : List String
  categories : List String
  functions : List String
  primary_audience : List String
  file_path : String
deriving DecidableEq, Repr

/-- Three JavaScript numbers, as a real triple. -/
abbrev Vec3 := ℝ × ℝ × ℝ

/-- Node record, from the Node interface of the types module. -/
structure Node where
  id : ℕ
  episode : Episode
  position : Vec3
  velocity : Vec3

/-- Edge record, from the Edge interface of the types module. -/
structure Edge where
  source : ℕ
  target : ℕ
  strength : ℝ

/-- Default episode, used as the out-of-range default for list indexing
(indexing is always in range where the code indexes). -/
def defEpisode : Episode :=
  { episode_name := "", guest_name := "", key_takeaways := []
    categories := [], functions := [], primary_audience := [], file_path := "" }

/-- Default node, used as the out-of-range default for list indexing. -/
def defNode : Node :=
  { id := 0, episode := defEpisode, position := (0, 0, 0), velocity := (0, 0, 0) }

/-! ### Graph Builder: createGraph -/

/-- Node list of createGraph: one node per episode, id = input position,
position = ((random-0.5)*200, (random-0.5)*200, (random-0.5)*100) using three
consecutive draws of the random stream, velocity = (0,0,0). -/
noncomputable def createGraphNodes (rand : ℕ → ℝ) (episodes : List Episode) : List Node :=
  episodes.enum.map fun p =>
    { id := p.1
      episode := p.2
      position := ((rand (3 * p.1) - 0.5) * 200,
                   (rand (3 * p.1 + 1) - 0.5) * 200,
                   (rand (3 * p.1 + 2) - 0.5) * 100)
      velocity := (0, 0, 0) }

/-- sharedCount of createGraph: for each of the three tag dimensions, the
number of tags of the first episode that the second episode also contains
(filter + includes), summed. -/
def sharedCount (e1 e2 : Episode) : ℕ :=
  (e1.categories.filter fun c => decide (c ∈ e2.categories)).length
  + (e1.functions.filter fun f => decide (f ∈ e2.functions)).length
  + (e1.primary_audience.filter fun a => decide (a ∈ e2.primary_audience)).length

/-- Edge list of createGraph: the double loop over i, and j from i+1, emitting
an edge (i, j, sharedCount / 10) whenever sharedCount is at least 2.  The
inner loop (j from i+1 up to length-1) is encoded as the ascending indices j
of the full range with i < j. -/
noncomputable def createGraphEdges (nodes : List Node) : List Edge :=
  (List.range nodes.length).flatMap fun i =>
    ((List.range nodes.length).filter fun j => decide (i < j)).filterMap fun j =>
      let sc := sharedCount (nodes.getD i defNode).episode (nodes.getD j defNode).episode
      if 2 ≤ sc then some { source := i, target := j, strength := (sc : ℝ) / 10 }
      else none

/-- createGraph: derives the node list and the edge list from the episodes. -/
noncomputable def createGraph (rand : ℕ → ℝ) (episodes : List Episode) :
    List Node × List Edge :=
  let nodes := createGraphNodes rand episodes
  (nodes, createGraphEdges nodes)

/-! ### Subgraph Filter: filterGraph

Selection sets (JavaScript Set of strings) are modelled as lists; only
emptiness and membership are consumed, so duplicates are irrelevant. -/

/-- The per-node survival test of filterGraph: for each dimension, the
selection is empty or some tag of the episode is selected; conjunction of
the three dimensions. -/
def nodeMatches (selC selF selA : List String) (n : Node) : Bool :=
  (selC.isEmpty || n.episode.categories.any fun c => decide (c ∈ selC))
  && (selF.isEmpty || n.episode.functions.any fun f => decide (f ∈ selF))
  && (selA.isEmpty || n.episode.primary_audience.any fun a => decide (a ∈ selA))

/-- filteredNodeIndices of filterGraph: the node indices whose node passes the
survival test, in ascending order (nodes.forEach visits indices ascending). -/
def keepIndices (nodes : List Node) (selC selF selA : List String) : List ℕ :=
  (List.range nodes.length).filter fun i =>
    nodeMatches selC selF selA (nodes.getD i defNode)

/-- Position of an element in a list of indices: models indexMap.get, where
indexMap assigns dense new indices 0, 1, 2, ... in insertion order over the
surviving indices. -/
def posIn (l : List ℕ) (i : ℕ) : ℕ :=
  match l with
  | [] => 0
  | j :: t => if j = i then 0 else posIn t i + 1

/-- filterGraph: identity when all three selections are empty; otherwise keeps
the surviving nodes (filter of the indexed node list by membership of the
index in filteredNodeIndices) and the edges with both endpoints surviving,
remapped through indexMap with their strength kept. -/
noncomputable def filterGraph (nodes : List Node) (edges : List Edge)
    (selC selF selA : List String) : List Node × List Edge :=
  if selC.isEmpty && selF.isEmpty && selA.isEmpty then (nodes, edges)
  else
    let keep := keepIndices nodes selC selF selA
    let filteredNodes := (nodes.enum.filter fun p => keep.contains p.1).map Prod.snd
    let filteredEdges :=
      (edges.filter fun e => keep.contains e.source && keep.contains e.target).map
        fun e => { source := posIn keep e.source, target := posIn keep e.target
                   strength := e.strength }
    (filteredNodes, filteredEdges)

/-! ### Layout Simulator: updateLayout of Graph3D -/

def repulsionStrength : ℝ := 0.03
def attractionStrength : ℝ := 0.003
def damping : ℝ := 0.95
def maxVelocity : ℝ := 0.5

/-- Euclidean norm of a displacement, Math.sqrt of the sum of squares. -/
noncomputable def jsNorm (d : Vec3) : ℝ :=
  Real.sqrt (d.1 ^ 2 + d.2.1 ^ 2 + d.2.2 ^ 2)

/-- JavaScript x || y on numbers: y exactly when x is zero (the only falsy
value arising here, as jsNorm is never negative). -/
noncomputable def jsOr (x y : ℝ) : ℝ := if x = 0 then y else x

/-- The distance actually used as divisor: Math.sqrt(...) || 0.1. -/
noncomputable def epsNorm (d : Vec3) : ℝ := jsOr (jsNorm d) 0.1

/-- Math.max(-b, Math.min(b, x)): clamp to [-b, b]. -/
noncomputable def jsClamp (b x : ℝ) : ℝ := max (-b) (min b x)

/-- In-place update of the list entry at an index (mutation of the node object
held at that index); out of range, no effect. -/
def listModify (l : List Node) (i : ℕ) (f : Node → Node) : List Node :=
  match l.get? i with
  | some a => l.set i (f a)
  | none => l

/-- All index pairs (i, j) with i < j < n, in the lexicographic order of the
repulsion double loop (j running from i+1 encoded as the ascending j with
i < j). -/
def allPairs (n : ℕ) : List (ℕ × ℕ) :=
  (List.range n).flatMap fun i =>
    ((List.range n).filter fun j => decide (i < j)).map fun j => (i, j)

/-- The pairs actually processed by the repulsion loop: both loop conditions
stop once repulsionCount reaches maxRepulsionChecks = min(n*10, 5000), so
exactly the first min(n*10, 5000) pairs in lexicographic order are used. -/
def repulsionPairs (n : ℕ) : List (ℕ × ℕ) :=
  (allPairs n).take (min (n * 10) 5000)

/-- One repulsion pair step: displacement node1 - node2, distance with the
|| 0.1 fallback, inverse-square force, force vector added to the velocity of
node1 and subtracted from the velocity of node2. -/
noncomputable def applyRepulsion (st : List Node) (p : ℕ × ℕ) : List Node :=
  let n1 := st.getD p.1 defNode
  let n2 := st.getD p.2 defNode
  let d : Vec3 := (n1.position.1 - n2.position.1,
                   n1.position.2.1 - n2.position.2.1,
                   n1.position.2.2 - n2.position.2.2)
  let dist := epsNorm d
  let force := repulsionStrength / dist ^ 2
  let f : Vec3 := (d.1 / dist * force, d.2.1 / dist * force, d.2.2 / dist * force)
  listModify
    (listModify st p.1 fun n =>
      { n with velocity := (n.velocity.1 + f.1, n.velocity.2.1 + f.2.1,
                            n.velocity.2.2 + f.2.2) })
    p.2 fun n =>
      { n with velocity := (n.velocity.1 - f.1, n.velocity.2.1 - f.2.1,
                            n.velocity.2.2 - f.2.2) }

/-- Repulsion step: fold of the processed pairs. -/
noncomputable def repulsionStep (st : List Node) : List Node :=
  (repulsionPairs st.length).foldl applyRepulsion st

/-- Force vector applied along one edge by the attraction step: displacement
from source to target, distance with the || 0.1 fallback, magnitude
attractionStrength * distance * strength, along the normalized displacement. -/
noncomputable def attractionForce (s t : Node) (strength : ℝ) : Vec3 :=
  let d : Vec3 := (t.position.1 - s.position.1,
                   t.position.2.1 - s.position.2.1,
                   t.position.2.2 - s.position.2.2)
  let dist := epsNorm d
  let force := attractionStrength * dist * strength
  (d.1 / dist * force, d.2.1 / dist * force, d.2.2 / dist * force)

/-- One attraction edge step: skipped when either endpoint is out of range
(the !source || !target guard); otherwise the force vector is added to the
velocity of the source node and subtracted from the velocity of the target
node. -/
noncomputable def applyAttraction (st : List Node) (e : Edge) : List Node :=
  match st.get? e.source, st.get? e.target with
  | some s, some t =>
    let f := attractionForce s t e.strength
    listModify
      (listModify st e.source fun n =>
        { n with velocity := (n.velocity.1 + f.1, n.velocity.2.1 + f.2.1,
                              n.velocity.2.2 + f.2.2) })
      e.target fun n =>
        { n with velocity := (n.velocity.1 - f.1, n.velocity.2.1 - f.2.1,
                              n.velocity.2.2 - f.2.2) }
  | _, _ => st

/-- Attraction step: fold over the edge list. -/
noncomputable def attractionStep (edges : List Edge) (st : List Node) : List Node :=
  edges.foldl applyAttraction st

/-- Damping, velocity clamp to plus-minus maxVelocity, position integration,
and containment clamp of the position to the box. -/
noncomputable def integrateNode (n : Node) : Node :=
  let v1 : Vec3 := (n.velocity.1 * damping, n.velocity.2.1 * damping,
                    n.velocity.2.2 * damping)
  let v2 : Vec3 := (jsClamp maxVelocity v1.1, jsClamp maxVelocity v1.2.1,
                    jsClamp maxVelocity v1.2.2)
  let p1 : Vec3 := (n.position.1 + v2.1, n.position.2.1 + v2.2.1,
                    n.position.2.2 + v2.2.2)
  let p2 : Vec3 := (jsClamp 100 p1.1, jsClamp 100 p1.2.1, jsClamp 50 p1.2.2)
  { n with velocity := v2, position := p2 }

/-- Integration step over every node. -/
noncomputable def integrationStep (st : List Node) : List Node :=
  st.map integrateNode

/-- One simulation tick, updateLayout: early return on the empty node list;
otherwise repulsion, then attraction, then integration and containment. -/
noncomputable def updateLayout (edges : List Edge) (st : List Node) : List Node :=
  if st.isEmpty then st
  else integrationStep (attractionStep edges (repulsionStep st))

/-- The paused effect: on pause, every node velocity is set to zero (once). -/
def pauseNodes (st : List Node) : List Node :=
  st.map fun n => { n with velocity := (0, 0, 0) }

/-! ### The nodes/edges rebuild effect of Graph3D -/

/-- existingPositions.get(name): the stored mesh position for an episode name.
The map is built by iterating the previous meshes in order with set, so a
later mesh with the same name overwrites an earlier one; get therefore
returns the position of the last previous node carrying the name.  Mesh
positions track node positions, so the previous nodes stand in for the
previous meshes. -/
def lastPos (old : List Node) (name : String) : Option Vec3 :=
  (old.reverse.find? fun n => decide (n.episode.episode_name = name)).map
    fun n => n.position

/-- Rebuild of one node: when a previous mesh with the same episode_name
exists, its position is written into the node and the velocity is reset to
zero; otherwise the node is left as built (fresh randomized position). -/
def rebuildNode (old : List Node) (n : Node) : Node :=
  match lastPos old n.episode.episode_name with
  | some p => { n with position := p, velocity := (0, 0, 0) }
  | none => n

/-- The nodes/edges rebuild effect applied to the new node list, given the
previous node list. -/
def rebuildGraph (old new : List Node) : List Node :=
  new.map (rebuildNode old)

/-- The bounding box of the containment step. -/
def inBox (p : Vec3) : Prop :=
  -100 ≤ p.1 ∧ p.1 ≤ 100 ∧ -100 ≤ p.2.1 ∧ p.2.1 ≤ 100 ∧ -50 ≤ p.2.2 ∧ p.2.2 ≤ 50

/-! ### C8: the all-empty selection is the identity projection -/

/-- C8: for every graph, filterGraph with all three selection sets empty
returns the input node and edge lists unchanged (the embedding is pure, so
nothing is mutated). -/
theorem c8_empty_selection_identity (nodes : List Node) (edges : List Edge) :
    filterGraph nodes edges [] [] [] = (nodes, edges) := by
  simp [filterGraph]

/-! ### C7: the Builder emits one node per item, in order, with zero velocity -/

/-- C7: createGraph yields exactly one node per episode with the node at
input position k carrying id k, the k-th episode, and zero velocity; the
empty episode sequence yields the empty graph.  The embedding is a pure
function of its input, so the Builder has no side effects. -/
theorem c7_builder_nodes (rand : ℕ → ℝ) (episodes : List Episode) :
    (createGraph rand episodes).1.length = episodes.length
    ∧ (∀ k, k < episodes.length →
        ((createGraph rand episodes).1.getD k defNode).id = k
        ∧ ((createGraph rand episodes).1.getD k defNode).episode
            = episodes.getD k defEpisode
        ∧ ((createGraph rand episodes).1.getD k defNode).velocity = (0, 0, 0))
    ∧ (episodes = [] → createGraph rand episodes = ([], [])) := by
  refine ⟨?_, ?_, ?_⟩
  · simp [createGraph, createGraphNodes]
  · intro k hk
    simp [createGraph, createGraphNodes, List.getD_eq_getElem?_getD,
      List.getElem?_map, List.getElem?_enum, List.getElem?_eq_getElem, hk]
  · intro h
    subst h
    simp [createGraph, createGraphNodes, createGraphEdges]

/-- Witness for C7 at a concrete input. -/
theorem c7_witness :
    ((createGraph (fun _ => 0) [defEpisode]).1.getD 0 defNode).id = 0
    ∧ ((createGraph (fun _ => 0) [defEpisode]).1.getD 0 defNode).velocity = (0, 0, 0)
    ∧ createGraph (fun _ => 0) ([] : List Episode) = ([], []) :=
  ⟨((c7_builder_nodes (fun _ => 0) [defEpisode]).2.1 0 (by norm_num)).1,
   ((c7_builder_nodes (fun _ => 0) [defEpisode]).2.1 0 (by norm_num)).2.2,
   (c7_builder_nodes (fun _ => 0) []).2.2 rfl⟩

/-! ### C10: surviving nodes are the input records, as a subsequence -/

/-- C10: for a non-all-empty selection, the node list returned by filterGraph
is a subsequence of the input node list consisting of the very same node
records (same id, episode, position and velocity fields); in the source the
records are aliased, which a pure embedding renders as record equality. -/
theorem c10_filter_sublist (nodes : List Node) (edges : List Edge)
    (selC selF selA : List String)
    (hsel : ¬(selC = [] ∧ selF = [] ∧ selA = [])) :
    ((filterGraph nodes edges selC selF selA).1).Sublist nodes := by
  rw [filterGraph]
  split
  · exact List.Sublist.refl nodes
  · have h1 : ((nodes.enum.filter fun p =>
        (keepIndices nodes selC selF selA).contains p.1).map Prod.snd).Sublist
        (nodes.enum.map Prod.snd) :=
      List.Sublist.map Prod.snd (List.filter_sublist _)
    simpa [List.enum_map_snd] using h1

/-- Witness for C10 at a concrete input. -/
theorem c10_witness :
    ((filterGraph [defNode] [] ["X"] [] []).1).Sublist [defNode] :=
  c10_filter_sublist [defNode] [] ["X"] [] [] (by simp)

/-! ### C6: positions stay inside the containment box -/

lemma jsClamp_lb (b x : ℝ) : -b ≤ jsClamp b x := le_max_left _ _

lemma jsClamp_ub (b x : ℝ) (hb : 0 ≤ b) : jsClamp b x ≤ b :=
  max_le (by linarith) (min_le_left _ _)

lemma integrateNode_inBox (n : Node) : inBox (integrateNode n).position := by
  have h : (integrateNode n).position
      = (jsClamp 100 (n.position.1 + jsClamp maxVelocity (n.velocity.1 * damping)),
         jsClamp 100 (n.position.2.1 + jsClamp maxVelocity (n.velocity.2.1 * damping)),
         jsClamp 50 (n.position.2.2 + jsClamp maxVelocity (n.velocity.2.2 * damping))) := rfl
  rw [inBox, h]
  exact ⟨jsClamp_lb _ _, jsClamp_ub _ _ (by norm_num), jsClamp_lb _ _,
    jsClamp_ub _ _ (by norm_num), jsClamp_lb _ _, jsClamp_ub _ _ (by norm_num)⟩

lemma updateLayout_inBox (edges : List Edge) (st : List Node) :
    ∀ nd ∈ updateLayout edges st, inBox nd.position := by
  intro nd hnd
  rw [updateLayout] at hnd
  split at hnd
  · have hst : st = [] := List.isEmpty_iff.mp (by assumption)
    subst hst
    simp at hnd
  · rw [integrationStep] at hnd
    obtain ⟨m, _, rfl⟩ := List.mem_map.mp hnd
    exact integrateNode_inBox m

/-- C6: for every graph built by the Builder (random draws in the interval
from 0 inclusive to 1 exclusive), after any number of simulation ticks every
node position lies in the box with x in the range -100..100, y in -100..100
and z in -50..50: initial positions land inside the box and every tick ends
by clamping positions to it. -/
theorem c6_positions_in_box (rand : ℕ → ℝ)
    (hrand : ∀ k, 0 ≤ rand k ∧ rand k < 1)
    (episodes : List Episode) (t : ℕ) :
    ∀ nd ∈ (updateLayout (createGraph rand episodes).2)^[t]
        (createGraph rand episodes).1, inBox nd.position := by
  induction t with
  | zero =>
    intro nd hnd
    simp only [Function.iterate_zero, id_eq] at hnd
    obtain ⟨p, _, rfl⟩ := List.mem_map.mp hnd
    refine ⟨?_, ?_, ?_, ?_, ?_, ?_⟩ <;>
      [have h0 := (hrand (3 * p.1)).1; have h0 := (hrand (3 * p.1)).2;
       have h0 := (hrand (3 * p.1 + 1)).1; have h0 := (hrand (3 * p.1 + 1)).2;
       have h0 := (hrand (3 * p.1 + 2)).1; have h0 := (hrand (3 * p.1 + 2)).2] <;>
      simp only [] <;> nlinarith [h0]
  | succ t ih =>
    intro nd hnd
    rw [Function.iterate_succ_apply'] at hnd
    exact updateLayout_inBox _ _ nd hnd

/-- Witness for C6 at a concrete input: the single node built from one
episode with all random draws equal to one half. -/
theorem c6_witness :
    inBox (Node.mk 0 defEpisode
      (((1 : ℝ) / 2 - 0.5) * 200, ((1 : ℝ) / 2 - 0.5) * 200,
        ((1 : ℝ) / 2 - 0.5) * 100)
      (0, 0, 0)).position :=
  c6_positions_in_box (fun _ => 1 / 2) (fun k => by norm_num) [defEpisode] 0 _
    (List.mem_singleton.mpr rfl)

/-! ### C2: edge existence, strength, and symmetry of sharedCount -/

lemma createGraphNodes_episode (rand : ℕ → ℝ) (episodes : List Episode) (k : ℕ)
    (hk : k < episodes.length) :
    ((createGraphNodes rand episodes).getD k defNode).episode
      = episodes.getD k defEpisode := by
  simp [createGraphNodes, List.getD_eq_getElem?_getD, List.getElem?_map,
    List.getElem?_enum, List.getElem?_eq_getElem, hk]

lemma filter_mem_length_eq_inter_card (l1 l2 : List String) (h1 : l1.Nodup) :
    (l1.filter fun c => decide (c ∈ l2)).length = (l1.toFinset ∩ l2.toFinset).card := by
  rw [← List.toFinset_card_of_nodup (h1.filter _)]
  congr 1
  ext a
  simp [List.mem_filter]

lemma filter_mem_length_comm (l1 l2 : List String) (h1 : l1.Nodup) (h2 : l2.Nodup) :
    (l1.filter fun c => decide (c ∈ l2)).length
      = (l2.filter fun c => decide (c ∈ l1)).length := by
  rw [filter_mem_length_eq_inter_card l1 l2 h1,
    filter_mem_length_eq_inter_card l2 l1 h2, Finset.inter_comm]

/-- sharedCount is symmetric for episodes whose tag lists carry no
duplicates (tag collections are sets in the data model). -/
lemma sharedCount_comm (e1 e2 : Episode)
    (h1 : e1.categories.Nodup ∧ e1.functions.Nodup ∧ e1.primary_audience.Nodup)
    (h2 : e2.categories.Nodup ∧ e2.functions.Nodup ∧ e2.primary_audience.Nodup) :
    sharedCount e1 e2 = sharedCount e2 e1 := by
  unfold sharedCount
  rw [filter_mem_length_comm _ _ h1.1 h2.1, filter_mem_length_comm _ _ h1.2.1 h2.2.1,
    filter_mem_length_comm _ _ h1.2.2 h2.2.2]

/-- Membership characterization of the edge list emitted by createGraph. -/
lemma mem_createGraphEdges (nodes : List Node) (e : Edge) :
    e ∈ createGraphEdges nodes ↔
      e.source < e.target ∧ e.target < nodes.length
      ∧ 2 ≤ sharedCount (nodes.getD e.source defNode).episode
              (nodes.getD e.target defNode).episode
      ∧ e.strength = (sharedCount (nodes.getD e.source defNode).episode
              (nodes.getD e.target defNode).episode : ℝ) / 10 := by
  unfold createGraphEdges
  simp only [List.mem_flatMap, List.mem_filterMap, List.mem_filter, List.mem_range,
    decide_eq_true_eq]
  constructor
  · rintro ⟨i, hi, j, ⟨⟨hj, hij⟩, h⟩⟩
    split at h
    · cases h
      exact ⟨hij, hj, by assumption, rfl⟩
    · cases h
  · rintro ⟨h1, h2, h3, h4⟩
    refine ⟨e.source, by omega, e.target, ⟨⟨h2, h1⟩, ?_⟩⟩
    rw [if_pos h3]
    cases e
    simp only at h4
    simp [h4]

/-- C2: in the built graph, for indices i < j an edge (i, j) exists iff the
sharedCount of the two episodes is at least 2; every emitted edge (i, j) has
strength exactly sharedCount / 10 (in particular no cap at 1.0 when
sharedCount exceeds 10); and sharedCount is symmetric when the tag lists are
duplicate-free (tag collections are sets in the data model). -/
theorem c2_edges_iff_sharedCount (rand : ℕ → ℝ) (episodes : List Episode) (i j : ℕ)
    (hij : i < j) (hj : j < episodes.length)
    (hnd : ∀ e ∈ episodes,
      e.categories.Nodup ∧ e.functions.Nodup ∧ e.primary_audience.Nodup) :
    ((∃ s, ({ source := i, target := j, strength := s } : Edge)
        ∈ (createGraph rand episodes).2) ↔
      2 ≤ sharedCount (episodes.getD i defEpisode) (episodes.getD j defEpisode))
    ∧ (∀ s, ({ source := i, target := j, strength := s } : Edge)
        ∈ (createGraph rand episodes).2 →
      s = (sharedCount (episodes.getD i defEpisode) (episodes.getD j defEpisode) : ℝ) / 10)
    ∧ sharedCount (episodes.getD i defEpisode) (episodes.getD j defEpisode)
        = sharedCount (episodes.getD j defEpisode) (episodes.getD i defEpisode) := by
  have hi : i < episodes.length := lt_trans hij hj
  have hlen : (createGraphNodes rand episodes).length = episodes.length := by
    simp [createGraphNodes]
  have hepi : ((createGraphNodes rand episodes).getD i defNode).episode
      = episodes.getD i defEpisode := createGraphNodes_episode rand episodes i hi
  have hepj : ((createGraphNodes rand episodes).getD j defNode).episode
      = episodes.getD j defEpisode := createGraphNodes_episode rand episodes j hj
  refine ⟨?_, ?_, ?_⟩
  · constructor
    · rintro ⟨s, hs⟩
      have h := (mem_createGraphEdges _ _).mp hs
      rw [hepi, hepj] at h
      exact h.2.2.1
    · intro h
      refine ⟨(sharedCount (episodes.getD i defEpisode) (episodes.getD j defEpisode) : ℝ) / 10,
        (mem_createGraphEdges _ _).mpr ?_⟩
      show i < j ∧ j < (createGraphNodes rand episodes).length
        ∧ 2 ≤ sharedCount ((createGraphNodes rand episodes).getD i defNode).episode
            ((createGraphNodes rand episodes).getD j defNode).episode
        ∧ (sharedCount (episodes.getD i defEpisode) (episodes.getD j defEpisode) : ℝ) / 10
          = (sharedCount ((createGraphNodes rand episodes).getD i defNode).episode
              ((createGraphNodes rand episodes).getD j defNode).episode : ℝ) / 10
      rw [hepi, hepj, hlen]
      exact ⟨hij, hj, h, rfl⟩
  · intro s hs
    have h := (mem_createGraphEdges _ _).mp hs
    rw [hepi, hepj] at h
    exact h.2.2.2
  · have hmi : episodes.getD i defEpisode ∈ episodes := by
      rw [List.getD_eq_getElem?_getD, List.getElem?_eq_getElem hi]
      exact List.getElem_mem hi
    have hmj : episodes.getD j defEpisode ∈ episodes := by
      rw [List.getD_eq_getElem?_getD, List.getElem?_eq_getElem hj]
      exact List.getElem_mem hj
    exact sharedCount_comm _ _ (hnd _ hmi) (hnd _ hmj)

/-- First concrete episode of the spec scenario: categories Product and
Growth, no other tags. -/
def epA : Episode :=
  { episode_name := "A", guest_name := "A", key_takeaways := []
    categories := ["Product", "Growth"], functions := [], primary_audience := []
    file_path := "" }

/-- Second concrete episode of the spec scenario: same two categories. -/
def epB : Episode :=
  { episode_name := "B", guest_name := "B", key_takeaways := []
    categories := ["Product", "Growth"], functions := [], primary_audience := []
    file_path := "" }

/-- Third concrete episode of the spec scenario: category Product only. -/
def epC : Episode :=
  { episode_name := "C", guest_name := "C", key_takeaways := []
    categories := ["Product"], functions := [], primary_audience := []
    file_path := "" }

/-- Witness for C2 at the concrete scenario of the spec. -/
theorem c2_witness :
    ((∃ s, ({ source := 0, target := 1, strength := s } : Edge)
        ∈ (createGraph (fun _ => 0) [epA, epB, epC]).2) ↔
      2 ≤ sharedCount ([epA, epB, epC].getD 0 defEpisode)
            ([epA, epB, epC].getD 1 defEpisode))
    ∧ (∀ s, ({ source := 0, target := 1, strength := s } : Edge)
        ∈ (createGraph (fun _ => 0) [epA, epB, epC]).2 →
      s = (sharedCount ([epA, epB, epC].getD 0 defEpisode)
            ([epA, epB, epC].getD 1 defEpisode) : ℝ) / 10)
    ∧ sharedCount ([epA, epB, epC].getD 0 defEpisode) ([epA, epB, epC].getD 1 defEpisode)
        = sharedCount ([epA, epB, epC].getD 1 defEpisode)
            ([epA, epB, epC].getD 0 defEpisode) :=
  c2_edges_iff_sharedCount (fun _ => 0) [epA, epB, epC] 0 1 (by norm_num) (by norm_num)
    (by intro e he; fin_cases he <;> exact ⟨by decide, by decide, by decide⟩)

/-! ### C3: filterGraph is the induced-subgraph projection with dense re-indexing -/

/-- The survival predicate as the spec states it: three-way AND across the
dimensions, at-least-one-match OR within each non-empty dimension. -/
def survives (selC selF selA : List String) (n : Node) : Prop :=
  (selC = [] ∨ ∃ c ∈ n.episode.categories, c ∈ selC)
  ∧ (selF = [] ∨ ∃ f ∈ n.episode.functions, f ∈ selF)
  ∧ (selA = [] ∨ ∃ a ∈ n.episode.primary_audience, a ∈ selA)

lemma nodeMatches_iff_survives (selC selF selA : List String) (n : Node) :
    nodeMatches selC selF selA n = true ↔ survives selC selF selA n := by
  simp [nodeMatches, survives, List.isEmpty_iff, List.any_eq_true, and_assoc]

lemma mem_keepIndices (nodes : List Node) (selC selF selA : List String) (i : ℕ) :
    i ∈ keepIndices nodes selC selF selA ↔
      i < nodes.length ∧ nodeMatches selC selF selA (nodes.getD i defNode) = true := by
  simp [keepIndices, List.mem_filter]

lemma keepIndices_nodup (nodes : List Node) (selC selF selA : List String) :
    (keepIndices nodes selC selF selA).Nodup :=
  ((List.pairwise_lt_range _).filter _).imp ne_of_lt

lemma getElem?_posIn (S : List ℕ) (i : ℕ) (h : i ∈ S) : S[posIn S i]? = some i := by
  induction S with
  | nil => cases h
  | cons a t ih =>
    by_cases hai : a = i
    · subst hai
      simp [posIn]
    · have hit : i ∈ t := by
        rcases List.mem_cons.mp h with h1 | h1
        · exact absurd h1.symm hai
        · exact h1
      simp [posIn, hai, ih hit]

lemma map_posIn_self (S : List ℕ) (h : S.Nodup) : S.map (posIn S) = List.range S.length := by
  induction S with
  | nil => rfl
  | cons a t ih =>
    have hat : a ∉ t := (List.nodup_cons.mp h).1
    have h1 : t.map (posIn (a :: t)) = (t.map (posIn t)).map Nat.succ := by
      rw [List.map_map]
      exact List.map_congr_left fun x hx => by
        have hax : ¬(a = x) := fun he => hat (he ▸ hx)
        simp [posIn, hax, Function.comp, Nat.succ_eq_add_one]
    have h2 : posIn (a :: t) a = 0 := by simp [posIn]
    calc (a :: t).map (posIn (a :: t))
        = posIn (a :: t) a :: t.map (posIn (a :: t)) := by simp
      _ = 0 :: (t.map (posIn t)).map Nat.succ := by rw [h1, h2]
      _ = 0 :: (List.range t.length).map Nat.succ := by rw [ih (List.nodup_cons.mp h).2]
      _ = List.range (t.length + 1) := (List.range_succ_eq_map _).symm
      _ = List.range (a :: t).length := by simp

lemma enumFrom_filter_map_snd (q : Node → Bool) (l : List Node) :
    ∀ k : ℕ, ((l.enumFrom k).filter fun p => q p.2).map Prod.snd = l.filter q := by
  induction l with
  | nil => intro k; rfl
  | cons a t ih =>
    intro k
    by_cases hq : q a <;> simp [List.filter_cons, hq, ih]

lemma filtered_nodes_eq (nodes : List Node) (selC selF selA : List String) :
    ((nodes.enum.filter fun p =>
        (keepIndices nodes selC selF selA).contains p.1).map Prod.snd)
      = nodes.filter (nodeMatches selC selF selA) := by
  have hcong : ∀ p ∈ nodes.enum,
      ((keepIndices nodes selC selF selA).contains p.1)
        = nodeMatches selC selF selA p.2 := by
    intro p hp
    have hget : nodes[p.1]? = some p.2 := List.mem_enum_iff_getElem?.mp hp
    have hlt : p.1 < nodes.length := by
      by_contra hle
      rw [List.getElem?_eq_none (by omega)] at hget
      cases hget
    have hgd : nodes.getD p.1 defNode = p.2 := by
      rw [List.getD_eq_getElem?_getD, hget]
      rfl
    rw [Bool.eq_iff_iff, List.elem_iff, mem_keepIndices, hgd]
    simp [hlt]
  rw [List.filter_congr hcong]
  exact enumFrom_filter_map_snd _ nodes 0

lemma filter_eq_keep_map (q : Node → Bool) (l : List Node) :
    l.filter q = ((List.range l.length).filter fun j => q (l.getD j defNode)).map
      (fun i => l.getD i defNode) := by
  induction l with
  | nil => rfl
  | cons a t ih =>
    have hsucc : ∀ j : ℕ, (a :: t).getD (Nat.succ j) defNode = t.getD j defNode :=
      fun j => rfl
    have hstep : ((List.range t.length).map Nat.succ).filter
          (fun j => q ((a :: t).getD j defNode))
        = ((List.range t.length).filter fun j => q (t.getD j defNode)).map Nat.succ := by
      rw [List.filter_map]
      congr 1
    have hmap : ∀ S : List ℕ, (S.map Nat.succ).map (fun i => (a :: t).getD i defNode)
        = S.map (fun i => t.getD i defNode) := by
      intro S
      rw [List.map_map]
      exact List.map_congr_left fun x _ => hsucc x
    calc (a :: t).filter q
        = if q a then a :: t.filter q else t.filter q := List.filter_cons
      _ = ((List.range (t.length + 1)).filter
            fun j => q ((a :: t).getD j defNode)).map (fun i => (a :: t).getD i defNode) := by
          rw [List.range_succ_eq_map, List.filter_cons, hstep]
          by_cases hq : q a
          · have hq0 : q ((a :: t).getD 0 defNode) = true := hq
            rw [if_pos hq, hq0]
            simp only [ite_true, List.map_cons, hmap]
            rw [ih]
            rfl
          · have hq0 : q ((a :: t).getD 0 defNode) = false := by
              simpa using hq
            rw [if_neg hq, hq0]
            simp only [Bool.false_eq_true, ite_false, hmap]
            rw [ih]
      _ = ((List.range (a :: t).length).filter
            fun j => q ((a :: t).getD j defNode)).map (fun i => (a :: t).getD i defNode) := by
          simp

/-- C3: for a non-all-empty selection, filterGraph keeps exactly the nodes
satisfying the survival predicate in their original relative order; the
surviving old indices are re-indexed densely to 0, 1, 2, ...; the re-mapped
index of a surviving node points at the same node record in the output; an
edge is kept iff both endpoints survive, and kept edges are remapped with
their strength preserved. -/
theorem c3_filter_projection (nodes : List Node) (edges : List Edge)
    (selC selF selA : List String)
    (hsel : ¬(selC = [] ∧ selF = [] ∧ selA = [])) :
    (filterGraph nodes edges selC selF selA).1
        = nodes.filter (nodeMatches selC selF selA)
    ∧ (∀ n, nodeMatches selC selF selA n = true ↔ survives selC selF selA n)
    ∧ (∀ i, i ∈ keepIndices nodes selC selF selA ↔
        i < nodes.length ∧ survives selC selF selA (nodes.getD i defNode))
    ∧ (keepIndices nodes selC selF selA).map (posIn (keepIndices nodes selC selF selA))
        = List.range (filterGraph nodes edges selC selF selA).1.length
    ∧ (∀ i ∈ keepIndices nodes selC selF selA,
        (filterGraph nodes edges selC selF selA).1.getD
          (posIn (keepIndices nodes selC selF selA) i) defNode = nodes.getD i defNode)
    ∧ (∀ e ∈ edges, e.source ∈ keepIndices nodes selC selF selA →
        e.target ∈ keepIndices nodes selC selF selA →
        ({ source := posIn (keepIndices nodes selC selF selA) e.source,
           target := posIn (keepIndices nodes selC selF selA) e.target,
           strength := e.strength } : Edge) ∈ (filterGraph nodes edges selC selF selA).2)
    ∧ (∀ e' ∈ (filterGraph nodes edges selC selF selA).2, ∃ e ∈ edges,
        e.source ∈ keepIndices nodes selC selF selA
        ∧ e.target ∈ keepIndices nodes selC selF selA
        ∧ e' = { source := posIn (keepIndices nodes selC selF selA) e.source,
                 target := posIn (keepIndices nodes selC selF selA) e.target,
                 strength := e.strength }) := by
  have hcond : ¬((selC.isEmpty && selF.isEmpty && selA.isEmpty) = true) := by
    intro hc
    exact hsel (by simpa [Bool.and_eq_true, List.isEmpty_iff, and_assoc] using hc)
  have hFG : filterGraph nodes edges selC selF selA
      = (((nodes.enum.filter fun p =>
            (keepIndices nodes selC selF selA).contains p.1).map Prod.snd),
         ((edges.filter fun e =>
            (keepIndices nodes selC selF selA).contains e.source
            && (keepIndices nodes selC selF selA).contains e.target).map
          fun e => { source := posIn (keepIndices nodes selC selF selA) e.source,
                     target := posIn (keepIndices nodes selC selF selA) e.target,
                     strength := e.strength })) := by
    rw [filterGraph, if_neg hcond]
  have hnodes1 : (filterGraph nodes edges selC selF selA).1
      = nodes.filter (nodeMatches selC selF selA) := by
    rw [hFG]
    exact filtered_nodes_eq nodes selC selF selA
  have hkeepmap : (filterGraph nodes edges selC selF selA).1
      = (keepIndices nodes selC selF selA).map (fun i => nodes.getD i defNode) := by
    rw [hnodes1, filter_eq_keep_map]
    rfl
  refine ⟨hnodes1, nodeMatches_iff_survives selC selF selA, ?_, ?_, ?_, ?_, ?_⟩
  · intro i
    rw [mem_keepIndices]
    exact and_congr_right fun _ => nodeMatches_iff_survives selC selF selA _
  · rw [map_posIn_self _ (keepIndices_nodup nodes selC selF selA), hkeepmap,
      List.length_map]
  · intro i hi
    rw [hkeepmap, List.getD_eq_getElem?_getD, List.getElem?_map,
      getElem?_posIn _ i hi]
    rfl
  · intro e he hs ht
    rw [hFG]
    refine List.mem_map.mpr ⟨e, List.mem_filter.mpr ⟨he, ?_⟩, rfl⟩
    rw [Bool.and_eq_true]
    exact ⟨List.elem_iff.mpr hs, List.elem_iff.mpr ht⟩
  · intro e' he'
    rw [hFG] at he'
    obtain ⟨e, hef, rfl⟩ := List.mem_map.mp he'
    obtain ⟨he, hkeep⟩ := List.mem_filter.mp hef
    rw [Bool.and_eq_true] at hkeep
    exact ⟨e, he, List.elem_iff.mp hkeep.1, List.elem_iff.mp hkeep.2, rfl⟩

/-- Concrete nodes for the witness scenarios. -/
def nA : Node := { id := 0, episode := epA, position := (1, 2, 3), velocity := (0, 0, 0) }

def nB : Node := { id := 1, episode := epB, position := (4, 5, 6), velocity := (0, 0, 0) }

def nC : Node := { id := 2, episode := epC, position := (7, 8, 9), velocity := (0, 0, 0) }

/-- Witness for C3 at the concrete scenario of the spec: filtering the
three-item set by the category Growth. -/
theorem c3_witness :
    (filterGraph [nA, nB, nC] [{ source := 0, target := 1, strength := 0.2 }]
        ["Growth"] [] []).1
      = [nA, nB, nC].filter (nodeMatches ["Growth"] [] []) :=
  (c3_filter_projection [nA, nB, nC] [{ source := 0, target := 1, strength := 0.2 }]
    ["Growth"] [] [] (by simp)).1

/-! ### C9: the || 0.1 fallback replaces only an exactly-zero norm -/

/-- Evaluation of epsNorm at a displacement whose norm is a known positive
value. -/
lemma epsNorm_of_sq (a b c r : ℝ) (h : a ^ 2 + b ^ 2 + c ^ 2 = r ^ 2) (hr : 0 < r) :
    epsNorm (a, b, c) = r := by
  have hn : jsNorm (a, b, c) = r := by
    show Real.sqrt (a ^ 2 + b ^ 2 + c ^ 2) = r
    rw [h, Real.sqrt_sq hr.le]
  rw [epsNorm, jsOr, hn, if_neg (ne_of_gt hr)]

/-- Nodes whose positions are 0.06 apart, for the C9 counterexample. -/
noncomputable def rA : Node :=
  { id := 0, episode := defEpisode, position := (3 / 50, 0, 0), velocity := (0, 0, 0) }

def rB : Node :=
  { id := 1, episode := defEpisode, position := (0, 0, 0), velocity := (0, 0, 0) }

/-- C9 counterexample: for two nodes at distance 0.06 the divisor actually
used by the force steps (Math.sqrt(...) || 0.1) is 0.06, strictly below 0.1,
so the norm is not floored at the epsilon. -/
theorem c9_counterexample :
    epsNorm (rA.position.1 - rB.position.1, rA.position.2.1 - rB.position.2.1,
      rA.position.2.2 - rB.position.2.2) < 0.1 := by
  have h : epsNorm (rA.position.1 - rB.position.1, rA.position.2.1 - rB.position.2.1,
      rA.position.2.2 - rB.position.2.2) = 3 / 50 := by
    apply epsNorm_of_sq
    · show ((3 : ℝ) / 50 - 0) ^ 2 + ((0 : ℝ) - 0) ^ 2 + ((0 : ℝ) - 0) ^ 2 = (3 / 50) ^ 2
      norm_num
    · norm_num
  rw [h]
  norm_num

/-- C9 amended: the divisor equals the Euclidean norm except when that norm
is exactly zero, in which case it is 0.1; it is therefore always positive
(no division by zero when nodes coincide), but it is not bounded below by
0.1 for non-coincident nodes. -/
theorem c9_epsilon_amended :
    (∀ d : Vec3, 0 < epsNorm d)
    ∧ (∀ d : Vec3, jsNorm d = 0 → epsNorm d = 0.1)
    ∧ (∀ d : Vec3, jsNorm d ≠ 0 → epsNorm d = jsNorm d) := by
  refine ⟨?_, ?_, ?_⟩
  · intro d
    rw [epsNorm, jsOr]
    split
    · norm_num
    · exact lt_of_le_of_ne (Real.sqrt_nonneg _) (Ne.symm (by assumption))
  · intro d h
    rw [epsNorm, jsOr, if_pos h]
  · intro d h
    rw [epsNorm, jsOr, if_neg h]

/-- Witness for C9 amended at the zero displacement. -/
theorem c9_witness :
    0 < epsNorm ((0 : ℝ), (0 : ℝ), (0 : ℝ))
    ∧ epsNorm ((0 : ℝ), (0 : ℝ), (0 : ℝ)) = 0.1 :=
  ⟨c9_epsilon_amended.1 (0, 0, 0),
   c9_epsilon_amended.2.1 (0, 0, 0) (by
    show Real.sqrt ((0 : ℝ) ^ 2 + (0 : ℝ) ^ 2 + (0 : ℝ) ^ 2) = 0
    norm_num)⟩

/-! ### C1: rebuild carries forward position but resets velocity to zero -/

/-- A node for episode A that is mid-simulation: nonzero velocity. -/
def nAv : Node := { id := 0, episode := epA, position := (5, 0, 0), velocity := (1, 0, 0) }

/-- C1 counterexample: a node surviving a rebuild (same episode_name before
and after) keeps its position but does not keep its velocity: the rebuild
resets the velocity to zero, while the node had velocity (1, 0, 0). -/
theorem c1_counterexample :
    ((rebuildGraph [nAv] [nAv]).getD 0 defNode).velocity ≠ nAv.velocity := by
  have h : ((rebuildGraph [nAv] [nAv]).getD 0 defNode).velocity = ((0 : ℝ), (0 : ℝ), (0 : ℝ)) := rfl
  rw [h]
  have h2 : nAv.velocity = ((1 : ℝ), (0 : ℝ), (0 : ℝ)) := rfl
  rw [h2]
  intro hc
  have := congrArg Prod.fst hc
  norm_num at this

/-- C1 amended: on every rebuild, a node whose episode_name has a stored
previous position gets exactly that position and velocity reset to zero;
the stored position of a surviving node is its own pre-rebuild position, so
position is carried forward while velocity is not.  A node whose
episode_name has no stored position (newly entering view) is left exactly as
built, keeping its fresh randomized position. -/
theorem c1_identity_continuity_amended (old : List Node) (n : Node) :
    (∀ p, lastPos old n.episode.episode_name = some p →
        (rebuildNode old n).position = p ∧ (rebuildNode old n).velocity = (0, 0, 0))
    ∧ (lastPos old n.episode.episode_name = none → rebuildNode old n = n) := by
  constructor
  · intro p hp
    rw [rebuildNode, hp]
    exact ⟨rfl, rfl⟩
  · intro hp
    rw [rebuildNode, hp]

/-- Witness for C1 amended: the surviving node keeps its position and gets
zero velocity; with no previous nodes the node is unchanged. -/
theorem c1_witness :
    ((rebuildNode [nAv] nAv).position = ((5 : ℝ), (0 : ℝ), (0 : ℝ))
      ∧ (rebuildNode [nAv] nAv).velocity = (0, 0, 0))
    ∧ rebuildNode [] nAv = nAv :=
  ⟨(c1_identity_continuity_amended [nAv] nAv).1 (5, 0, 0) rfl,
   (c1_identity_continuity_amended [] nAv).2 rfl⟩

/-! ### C5: attraction adds the force to the source and subtracts from the target -/

lemma listModify_get?_same (l : List Node) (i : ℕ) (f : Node → Node) (a : Node)
    (h : l.get? i = some a) : (listModify l i f).get? i = some (f a) := by
  have hlt : i < l.length := (List.get?_eq_some.mp h).choose
  rw [listModify, h, List.get?_eq_getElem?, List.getElem?_set_eq_of_lt _ hlt]

lemma listModify_get?_ne (l : List Node) (i j : ℕ) (f : Node → Node) (h : j ≠ i) :
    (listModify l j f).get? i = l.get? i := by
  rw [listModify]
  cases hj : l.get? j with
  | none => rfl
  | some a => rw [List.get?_eq_getElem?, List.getElem?_set_ne h, List.get?_eq_getElem?]

/-- C5 amended: for every edge with distinct in-range endpoints, the
attraction step computes the displacement from source to target, its norm
with the || 0.1 fallback, the force of magnitude
attractionStrength * distance * edge.strength along the normalized
displacement, and adds this force vector to the velocity of the SOURCE node
while subtracting it from the velocity of the TARGET node (the spec has the
two roles swapped). -/
theorem c5_attraction_amended (st : List Node) (e : Edge) (s t : Node)
    (hs : st.get? e.source = some s) (ht : st.get? e.target = some t)
    (hst : e.source ≠ e.target) :
    ((applyAttraction st e).getD e.source defNode).velocity
        = (s.velocity.1 + (attractionForce s t e.strength).1,
           s.velocity.2.1 + (attractionForce s t e.strength).2.1,
           s.velocity.2.2 + (attractionForce s t e.strength).2.2)
    ∧ ((applyAttraction st e).getD e.target defNode).velocity
        = (t.velocity.1 - (attractionForce s t e.strength).1,
           t.velocity.2.1 - (attractionForce s t e.strength).2.1,
           t.velocity.2.2 - (attractionForce s t e.strength).2.2) := by
  have happ : applyAttraction st e
      = listModify
          (listModify st e.source fun n =>
            { n with velocity := (n.velocity.1 + (attractionForce s t e.strength).1,
                n.velocity.2.1 + (attractionForce s t e.strength).2.1,
                n.velocity.2.2 + (attractionForce s t e.strength).2.2) })
          e.target fun n =>
            { n with velocity := (n.velocity.1 - (attractionForce s t e.strength).1,
                n.velocity.2.1 - (attractionForce s t e.strength).2.1,
                n.velocity.2.2 - (attractionForce s t e.strength).2.2) } := by
    rw [applyAttraction, hs, ht]
  constructor
  · have hmid : (listModify st e.source fun n =>
        { n with velocity := (n.velocity.1 + (attractionForce s t e.strength).1,
            n.velocity.2.1 + (attractionForce s t e.strength).2.1,
            n.velocity.2.2 + (attractionForce s t e.strength).2.2) }).get? e.source
        = some { s with velocity := (s.velocity.1 + (attractionForce s t e.strength).1,
            s.velocity.2.1 + (attractionForce s t e.strength).2.1,
            s.velocity.2.2 + (attractionForce s t e.strength).2.2) } :=
      listModify_get?_same st e.source _ s hs
    rw [happ, List.getD_eq_getElem?_getD, ← List.get?_eq_getElem?,
      listModify_get?_ne _ _ _ _ (Ne.symm hst), hmid]
    rfl
  · have hmid : (listModify st e.source fun n =>
        { n with velocity := (n.velocity.1 + (attractionForce s t e.strength).1,
            n.velocity.2.1 + (attractionForce s t e.strength).2.1,
            n.velocity.2.2 + (attractionForce s t e.strength).2.2) }).get? e.target
        = st.get? e.target :=
      listModify_get?_ne _ _ _ _ hst
    rw [happ, List.getD_eq_getElem?_getD, ← List.get?_eq_getElem?,
      listModify_get?_same _ e.target _ t (by rw [hmid, ht])]
    rfl

/-- Source node of the C5 and C4 concrete inputs: at the origin. -/
def sN : Node := { id := 0, episode := defEpisode, position := (0, 0, 0), velocity := (0, 0, 0) }

/-- Target node of the C5 concrete input: at distance 1 along the x axis. -/
def tN : Node := { id := 1, episode := defEpisode, position := (1, 0, 0), velocity := (0, 0, 0) }

/-- Edge from sN to tN with strength 1. -/
def stEdge : Edge := { source := 0, target := 1, strength := 1 }

lemma attractionForce_sN_tN : attractionForce sN tN stEdge.strength
    = ((3 : ℝ) / 1000, 0, 0) := by
  have he : epsNorm (tN.position.1 - sN.position.1, tN.position.2.1 - sN.position.2.1,
      tN.position.2.2 - sN.position.2.2) = 1 := by
    apply epsNorm_of_sq
    · show ((1 : ℝ) - 0) ^ 2 + ((0 : ℝ) - 0) ^ 2 + ((0 : ℝ) - 0) ^ 2 = 1 ^ 2
      norm_num
    · norm_num
  rw [attractionForce]
  simp only [he]
  show (((1 : ℝ) - 0) / 1 * (attractionStrength * 1 * (1 : ℝ)),
        ((0 : ℝ) - 0) / 1 * (attractionStrength * 1 * (1 : ℝ)),
        ((0 : ℝ) - 0) / 1 * (attractionStrength * 1 * (1 : ℝ)))
      = ((3 : ℝ) / 1000, 0, 0)
  rw [attractionStrength]
  norm_num

/-- C5 counterexample: at the concrete input, the velocity of the TARGET
node after the attraction step is not its previous velocity plus the force
(as the claim asserts); the code subtracts the force from the target. -/
theorem c5_counterexample :
    ((applyAttraction [sN, tN] stEdge).getD 1 defNode).velocity
      ≠ (tN.velocity.1 + (attractionForce sN tN stEdge.strength).1,
         tN.velocity.2.1 + (attractionForce sN tN stEdge.strength).2.1,
         tN.velocity.2.2 + (attractionForce sN tN stEdge.strength).2.2) := by
  have hv : ((applyAttraction [sN, tN] stEdge).getD 1 defNode).velocity
      = (tN.velocity.1 - (attractionForce sN tN stEdge.strength).1,
         tN.velocity.2.1 - (attractionForce sN tN stEdge.strength).2.1,
         tN.velocity.2.2 - (attractionForce sN tN stEdge.strength).2.2) := rfl
  rw [hv, attractionForce_sN_tN]
  intro hc
  have h1 := congrArg Prod.fst hc
  have h2 : tN.velocity.1 = 0 := rfl
  rw [h2] at h1
  norm_num at h1

/-- Witness for C5 amended at the concrete input. -/
theorem c5_witness :
    ((applyAttraction [sN, tN] stEdge).getD stEdge.source defNode).velocity
        = (sN.velocity.1 + (attractionForce sN tN stEdge.strength).1,
           sN.velocity.2.1 + (attractionForce sN tN stEdge.strength).2.1,
           sN.velocity.2.2 + (attractionForce sN tN stEdge.strength).2.2)
    ∧ ((applyAttraction [sN, tN] stEdge).getD stEdge.target defNode).velocity
        = (tN.velocity.1 - (attractionForce sN tN stEdge.strength).1,
           tN.velocity.2.1 - (attractionForce sN tN stEdge.strength).2.1,
           tN.velocity.2.2 - (attractionForce sN tN stEdge.strength).2.2) :=
  c5_attraction_amended [sN, tN] stEdge sN tN rfl rfl (by decide)

/-! ### C4: a tick after pausing still moves nodes -/

/-- Second node of the C4 concrete input: at distance 1 from sN. -/
def qB : Node := { id := 1, episode := defEpisode, position := (1, 0, 0), velocity := (0, 0, 0) }

/-- C4: evaluation of the code at the failing input.  The paused effect
zeroes all velocities once, but the animation loop keeps calling
updateLayout, whose repulsion step immediately re-accelerates the nodes: one
tick after pausing, the position of node 0 has changed.  This contradicts
the claim (and the spec) that positions stay fixed while paused. -/
theorem c4_paused_tick_moves_node :
    ((updateLayout [] (pauseNodes [sN, qB])).getD 0 defNode).position
      ≠ ((pauseNodes [sN, qB]).getD 0 defNode).position := by
  have hd : epsNorm (sN.position.1 - qB.position.1, sN.position.2.1 - qB.position.2.1,
      sN.position.2.2 - qB.position.2.2) = 1 := by
    apply epsNorm_of_sq
    · show ((0 : ℝ) - 1) ^ 2 + ((0 : ℝ) - 0) ^ 2 + ((0 : ℝ) - 0) ^ 2 = 1 ^ 2
      norm_num
    · norm_num
  have key : ((updateLayout [] (pauseNodes [sN, qB])).getD 0 defNode).position.1
      = jsClamp 100 (sN.position.1 + jsClamp maxVelocity
          ((0 + (sN.position.1 - qB.position.1)
              / epsNorm (sN.position.1 - qB.position.1, sN.position.2.1 - qB.position.2.1,
                  sN.position.2.2 - qB.position.2.2)
              * (repulsionStrength
                / epsNorm (sN.position.1 - qB.position.1, sN.position.2.1 - qB.position.2.1,
                    sN.position.2.2 - qB.position.2.2) ^ 2)) * damping)) := rfl
  have hne : ((updateLayout [] (pauseNodes [sN, qB])).getD 0 defNode).position.1
      ≠ ((pauseNodes [sN, qB]).getD 0 defNode).position.1 := by
    rw [key, hd]
    have hrhs : ((pauseNodes [sN, qB]).getD 0 defNode).position.1 = 0 := rfl
    have hs1 : sN.position.1 = 0 := rfl
    have hq1 : qB.position.1 = 1 := rfl
    rw [hrhs, hs1, hq1, jsClamp, jsClamp, maxVelocity, repulsionStrength, damping]
    norm_num [min_def, max_def]
  exact fun heq => hne (congrArg Prod.fst heq)

end LennyGraph
